import Mathlib

/-!
Verification of the `ego` lifecycle orchestrator (`ego_function.go`).

The Go source is shallowly embedded: each function relevant to the claims is
translated into a pure Lean function. Side effects (calls into servers, the
registry, the logger, the job runner, `os.Exit`) are recorded as events in an
explicit trace, so that "X is never invoked" and ordering statements become
statements about lists of events. Error values (`error` in Go) are `Option
String` (`none` = nil). Concurrency (the `errgroup` completion order of jobs)
is made explicit as a completion-order parameter.
-/

namespace Ego

/-- A Go `error` value: `none` is `nil`. -/
abbrev Err := Option String

/-- An ordered server as the sequencer sees it: its name and the result of its
`Health()` probe at the i-th polling attempt. `Prepare`, `Init` and `Start`
are effectful calls recorded in the trace. -/
structure OrderedServer where
  name : String
  health : Nat → Bool

/-- A short-lived job: the error its blocking `Start()` eventually returns. -/
structure JobModel where
  result : Err
  deriving DecidableEq, Repr

/-- Events emitted by the ordered-startup sequencer (`startOrderServers`).
`idx` is the position of the server in `e.orderServers`; it is bookkeeping of
the model, the Go code identifies servers only by name. -/
inductive Event where
  | prepare (idx : Nat) (name : String)
  | initServer (idx : Nat) (name : String)
  | submitStart (idx : Nat) (name : String)
  | runJobs
  deriving DecidableEq, Repr

/-- The three synchronous sequencer actions taken for one server that passes
the job check: `s.Prepare()` came first, then `s.Init()`, then the `Start`
closure is submitted to `e.cycle.Run`. -/
def serverEvents (i : Nat) (s : OrderedServer) : List Event :=
  [Event.prepare i s.name, Event.initServer i s.name, Event.submitStart i s.name]

/-- Modelled from the spec: the Retry Policy (`internal/retry`, not part of the
embedded source) is "bounded/backing-off iteration used while polling health";
polling lasts "until it reports ready or the policy's governing deadline
elapses". It is modelled as a budget of attempts: `healthLoop probe fuel i`
polls `probe` at attempts `i, i+1, ...` while budget remains, returning whether
a probe ever reported ready. This is the loop
`for r := retry.Begin(); r.Continue(ctx); { if s.Health() { ... break } }`. -/
def healthLoop (probe : Nat → Bool) : Nat → Nat → Bool
  | 0, _ => false
  | Nat.succ fuel, i => if probe i then true else healthLoop probe fuel (i + 1)

/-- First non-`nil` error in a list of completion results: this is the value
retained by `errgroup.Group.Wait`, whose contract is to return the first
non-nil error among the goroutines in completion order. -/
def firstErr : List Err → Err
  | [] => none
  | none :: rest => firstErr rest
  | some e :: _ => some e

/-- `(e *Ego) startJobs()`: returns `nil` immediately when no jobs are
configured; otherwise wraps every job, submits each to an `errgroup`, waits
for all, and returns the group's first observed error. The scheduler's
nondeterminism is the completion order `order`: a permutation of the job
indices giving the order in which the jobs' `Start()` calls return. -/
def startJobs (jobs : List JobModel) (order : List Nat) : Err :=
  if jobs.length = 0 then none
  else firstErr (order.filterMap (fun i => (jobs.get? i).map JobModel.result))

/-- The loop body of `(e *Ego) startOrderServers`. For each server in order:
`s.Prepare()`; if `len(e.jobs) > 0` return `(e.startJobs(), true)`; otherwise
`s.Init()`, submit the `Start` closure to the cycle, then poll `Health` under
the retry policy; an unhealthy server aborts with an error naming it and
`isNeedStop = true`. Returns (error, isNeedStop, trace of sequencer actions). -/
def startOrderServersGo (js : List JobModel) (ord : List Nat) (b : Nat) :
    Nat → List OrderedServer → Err × Bool × List Event
  | _, [] => (none, false, [])
  | i, s :: rest =>
    if js.length > 0 then
      (startJobs js ord, true, [Event.prepare i s.name, Event.runJobs])
    else
      if healthLoop s.health b 0 then
        let r := startOrderServersGo js ord b (i + 1) rest
        (r.1, r.2.1, serverEvents i s ++ r.2.2)
      else
        (some ("start order server fail,err:  " ++ s.name), true, serverEvents i s)

/-- The orchestrator state that `startOrderServers` reads: the ordered-server
list, the configured jobs, and the retry policy's attempt budget. -/
structure EgoModel where
  orderServers : List OrderedServer
  jobs : List JobModel
  retryBudget : Nat

/-- `(e *Ego) startOrderServers(ctx)`: runs the loop body over
`e.orderServers` from index 0. -/
def startOrderServers (e : EgoModel) (ord : List Nat) : Err × Bool × List Event :=
  startOrderServersGo e.jobs ord e.retryBudget 0 e.orderServers

/-! ### The signal handler (`waitSignals`) -/

/-- Actions taken by the goroutine spawned in `(e *Ego) waitSignals`. -/
inductive SigAction where
  | spawnStop (graceful : Bool) (reload : Bool)
  | logQuit
  | exitProcess (code : Nat)
  deriving DecidableEq, Repr

/-- The signal number of `syscall.SIGQUIT`. -/
def sigquitNum : Nat := 3

/-- The signal-handling goroutine of `(e *Ego) waitSignals`, as a function of
the sequence of signal numbers delivered on the channel. On the first signal
`s` it computes `grace := s != syscall.SIGQUIT` and `reload := s ==
ReloadSignal` and spawns the asynchronous stop routine; it then blocks on a
second receive, logs "waitSignals quit" and calls
`os.Exit(128 + int(s))` — note `s` is still the first signal. With no second
signal it stays blocked, so no further action is taken. -/
def waitSignals (reloadSig : Nat) : List Nat → List SigAction
  | [] => []
  | [s] => [SigAction.spawnStop (s != sigquitNum) (s == reloadSig)]
  | s :: _ :: _ =>
    [SigAction.spawnStop (s != sigquitNum) (s == reloadSig),
     SigAction.logQuit,
     SigAction.exitProcess (128 + s)]

/-! ### The asynchronous stop routine and its deadline scope

`waitSignals` spawns a goroutine that builds `stopCtx` with
`context.WithTimeoutCause(Background, stopTimeout, ...)`, defers
`signal.Stop; cancel()`, calls `e.Stop(stopCtx, grace, reload)`, waits on
`<-stopCtx.Done()`, and logs an error when
`errors.Is(stopCtx.Err(), context.DeadlineExceeded)`. Time is modelled in
abstract units starting at 0 when the goroutine begins. -/

/-- Error state of a `context.WithTimeout` context. -/
inductive CtxErr where
  | noErr
  | canceled
  | deadlineExceeded
  deriving DecidableEq, Repr

/-- The instant a timeout context's `Done` channel closes: at cancellation or
at the deadline, whichever comes first (`none` = cancel never called). -/
def ctxDoneAt (deadline : Nat) (canceledAt : Option Nat) : Nat :=
  match canceledAt with
  | some c => min c deadline
  | none => deadline

/-- `ctx.Err()` of a timeout context observed at time `now`: `Canceled` if
`cancel` ran strictly before the deadline and has happened, `DeadlineExceeded`
once the deadline has passed, `nil` before either. -/
def ctxErrAt (deadline : Nat) (canceledAt : Option Nat) (now : Nat) : CtxErr :=
  match canceledAt with
  | some c =>
    if c < deadline ∧ c ≤ now then CtxErr.canceled
    else if deadline ≤ now then CtxErr.deadlineExceeded
    else CtxErr.noErr
  | none => if deadline ≤ now then CtxErr.deadlineExceeded else CtxErr.noErr

/-- The stop goroutine spawned on the first signal. `stopDuration` is the time
`e.Stop` takes to return; `stopTimeout` is `e.opts.stopTimeout`. The `cancel`
of `stopCtx` is deferred, so it has not yet run when the goroutine blocks on
`<-stopCtx.Done()` (`canceledAt = none` there): the wait ends at
`max stopDuration (ctxDoneAt stopTimeout none)`, and the deadline-expiry error
is recorded iff `stopCtx.Err()` is `DeadlineExceeded` at that instant.
Returns (time at which the wait ends, whether the error was recorded). -/
def waitSignalsStopRoutine (stopDuration stopTimeout : Nat) : Nat × Bool :=
  let stopReturn := stopDuration
  let doneClosed := ctxDoneAt stopTimeout none
  let waitEnd := max stopReturn doneClosed
  (waitEnd, ctxErrAt stopTimeout none waitEnd == CtxErr.deadlineExceeded)

/-! ### The reload fork (`forkChild`) -/

/-- A reload-capable listener as `forkChild` sees it after the TCP assertion
and `tl.File()` both succeed: the extracted descriptor's file name. -/
structure ReloadListener where
  fdName : String
  deriving DecidableEq, Repr

/-- The extraction loop of `forkChild`: for each reload server it appends the
listener file's name to `fnames`, the file to `extraFiles`, and increments
`lc`. Returns `(lc, fnames)`. -/
def extractLoop (ls : List ReloadListener) : Nat × List String :=
  ls.foldl (fun acc l => (acc.1 + 1, acc.2 ++ [l.fdName])) (0, [])

/-- The argument transformation of `forkChild`:
`if !lo.Contains(args, "-r") { args = append(args, "-r") }`. -/
def childArgs (args : List String) : List String :=
  if "-r" ∈ args then args else args ++ ["-r"]

/-- `(e *Ego) forkChild()`, restricted to the data it publishes to the child:
the value of `LISTEN_FDS` (the descriptor count `lc`), the value of
`LISTEN_FDNAMES` (`strings.Join(fnames, ":")`), and the child's argument
list. -/
def forkChild (ls : List ReloadListener) (args : List String) :
    Nat × String × List String :=
  let r := extractLoop ls
  (r.1, String.intercalate ":" r.2, childArgs args)

/-! ### The per-server run units submitted to the supervisor group -/

/-- Events of a single server's run closure (`e.cycle.Run(func() error ...)`). -/
inductive SrvEvent where
  | initCall
  | registerCall
  | logRegErr (e : String)
  | startCall
  | unregisterCall
  deriving DecidableEq, Repr

/-- The closure submitted by `startServers` for one server: `s.Init()`;
`RegisterService` (its error logged when non-nil); a deferred
`UnregisterService`; `s.Start()`; the deferred unregister runs as the closure
exits, and the closure's result is `s.Start()`'s error. `regErr` is the
registry's answer, `startRes` the server's `Start` result. -/
def serverRunUnit (regErr startRes : Err) : Err × List SrvEvent :=
  (startRes,
   [SrvEvent.initCall, SrvEvent.registerCall]
     ++ (match regErr with
         | some e => [SrvEvent.logRegErr e]
         | none => [])
     ++ [SrvEvent.startCall, SrvEvent.unregisterCall])

/-- The closure submitted by `startOrderServers` for one ordered server: the
same as `serverRunUnit` except that `s.Init()` is called by the sequencer
before submission, not inside the closure. -/
def orderRunUnit (regErr startRes : Err) : Err × List SrvEvent :=
  (startRes,
   [SrvEvent.registerCall]
     ++ (match regErr with
         | some e => [SrvEvent.logRegErr e]
         | none => [])
     ++ [SrvEvent.startCall, SrvEvent.unregisterCall])

/-! ### The stop-hook runners -/

/-- `runSerialFuncReturnError(fns)`: each hook is represented by the error it
returns when invoked. The runner calls hooks in order and returns at the first
non-nil error. The model also returns how many hooks were invoked. -/
def runSerialFuncReturnError : List Err → Err × Nat
  | [] => (none, 0)
  | some e :: _ => (some e, 1)
  | none :: rest =>
    let r := runSerialFuncReturnError rest
    (r.1, r.2 + 1)

/-- `runSerialFuncLogError(fns)`: calls every hook in order, logging each
non-nil error; it returns nothing in Go. The model returns how many hooks were
invoked and the list of logged errors in order. -/
def runSerialFuncLogError : List Err → Nat × List String
  | [] => (0, [])
  | r :: rest =>
    let t := runSerialFuncLogError rest
    (t.1 + 1,
     (match r with
      | some e => [e]
      | none => []) ++ t.2)

/-! ## Helper lemmas -/

theorem extractLoop_foldl (ls : List ReloadListener) (c : Nat) (ns : List String) :
    ls.foldl (fun acc l => (acc.1 + 1, acc.2 ++ [l.fdName])) (c, ns)
      = (c + ls.length, ns ++ ls.map ReloadListener.fdName) := by
  induction ls generalizing c ns with
  | nil => simp
  | cons hd tl ih =>
    rw [List.foldl_cons, ih]
    simp
    omega

theorem extractLoop_spec (ls : List ReloadListener) :
    extractLoop ls = (ls.length, ls.map ReloadListener.fdName) := by
  unfold extractLoop
  rw [extractLoop_foldl]
  simp

theorem firstErr_eq_none_iff (l : List Err) :
    firstErr l = none ↔ ∀ x ∈ l, x = none := by
  induction l with
  | nil => simp [firstErr]
  | cons r rest ih =>
    cases r <;> simp [firstErr, ih]

theorem firstErr_mem (l : List Err) (e : String) (h : firstErr l = some e) :
    some e ∈ l := by
  induction l with
  | nil => simp [firstErr] at h
  | cons r rest ih =>
    cases r with
    | none =>
      simp only [firstErr] at h
      exact List.mem_cons_of_mem _ (ih h)
    | some a =>
      simp only [firstErr, Option.some.injEq] at h
      subst h
      simp

theorem runSerialReturn_all_none (l : List Err) (h : ∀ r ∈ l, r = none) :
    runSerialFuncReturnError l = (none, l.length) := by
  induction l with
  | nil => rfl
  | cons r rest ih =>
    have hr : r = none := h r (by simp)
    subst hr
    simp [runSerialFuncReturnError, ih (fun x hx => h x (by simp [hx]))]

theorem runSerialReturn_first_err (pre : List Err) (e : String) (post : List Err)
    (h : ∀ r ∈ pre, r = none) :
    runSerialFuncReturnError (pre ++ some e :: post) = (some e, pre.length + 1) := by
  induction pre with
  | nil => rfl
  | cons r rest ih =>
    have hr : r = none := h r (by simp)
    subst hr
    simp [runSerialFuncReturnError, ih (fun x hx => h x (by simp [hx]))]

theorem runSerialLog_spec (l : List Err) :
    (runSerialFuncLogError l).1 = l.length
      ∧ (runSerialFuncLogError l).2 = l.filterMap id := by
  induction l with
  | nil => exact ⟨rfl, rfl⟩
  | cons r rest ih =>
    cases r <;> simp [runSerialFuncLogError, ih.1, ih.2]

theorem initServer_mem_go (js : List JobModel) (ord : List Nat) (b : Nat) :
    ∀ (l : List OrderedServer) (i k : Nat) (nm : String),
      Event.initServer k nm ∈ (startOrderServersGo js ord b i l).2.2 →
      js = [] ∧ i ≤ k ∧ (∃ s, l.get? (k - i) = some s ∧ nm = s.name)
        ∧ ∀ m s2, m < k - i → l.get? m = some s2 → healthLoop s2.health b 0 = true := by
  intro l
  induction l with
  | nil =>
    intro i k nm h
    simp [startOrderServersGo] at h
  | cons s rest ih =>
    intro i k nm h
    by_cases hj : js.length > 0
    · simp [startOrderServersGo, hj] at h
    · have hj0 : js = [] := by
        cases js with
        | nil => rfl
        | cons a as => simp at hj
      subst hj0
      by_cases hh : healthLoop s.health b 0 = true
      · simp [startOrderServersGo, hh, serverEvents] at h
        rcases h with hk | hmem
        · refine ⟨rfl, Nat.le_of_eq hk.1.symm, ⟨s, by simp [hk.1], hk.2⟩, ?_⟩
          intro m s2 hm
          simp [hk.1] at hm
        · obtain ⟨_, hik, ⟨s2, hget, hnm⟩, hall⟩ := ih (i + 1) k nm hmem
          have hik0 : i ≤ k := Nat.le_of_succ_le hik
          have hsub : k - i = (k - (i + 1)) + 1 := by omega
          refine ⟨rfl, hik0, ⟨s2, ?_, hnm⟩, ?_⟩
          · rw [hsub]
            simpa using hget
          · intro m s3 hm hget3
            rw [hsub] at hm
            cases m with
            | zero =>
              simp at hget3
              subst hget3
              exact hh
            | succ m2 =>
              have hm2 : m2 < k - (i + 1) := Nat.lt_of_succ_lt_succ hm
              exact hall m2 s3 hm2 (by simpa using hget3)
      · have hh2 : healthLoop s.health b 0 = false := by
          simpa using hh
        simp [startOrderServersGo, hh2, serverEvents] at h
        refine ⟨rfl, Nat.le_of_eq h.1.symm, ⟨s, by simp [h.1], h.2⟩, ?_⟩
        intro m s2 hm
        simp [h.1] at hm

theorem go_unhealthy_stops (ord : List Nat) (b : Nat) :
    ∀ (pre : List OrderedServer) (bad : OrderedServer) (post : List OrderedServer) (i : Nat),
      (∀ s ∈ pre, healthLoop s.health b 0 = true) →
      healthLoop bad.health b 0 = false →
      startOrderServersGo [] ord b i (pre ++ bad :: post)
        = startOrderServersGo [] ord b i (pre ++ [bad])
      ∧ (startOrderServersGo [] ord b i (pre ++ bad :: post)).1
          = some ("start order server fail,err:  " ++ bad.name)
      ∧ (startOrderServersGo [] ord b i (pre ++ bad :: post)).2.1 = true := by
  intro pre
  induction pre with
  | nil =>
    intro bad post i hpre hbad
    refine ⟨?_, ?_, ?_⟩ <;> simp [startOrderServersGo, hbad]
  | cons s rest ih =>
    intro bad post i hpre hbad
    have hs : healthLoop s.health b 0 = true := hpre s (by simp)
    have ihr := ih bad post (i + 1) (fun x hx => hpre x (by simp [hx])) hbad
    have h1 := ihr.2.1
    rw [ihr.1] at h1
    have h2 := ihr.2.2
    rw [ihr.1] at h2
    refine ⟨?_, ?_, ?_⟩ <;>
      simp [startOrderServersGo, hs, ihr.1, h1, h2]

/-! ## Claim theorems -/

/-- C1: for every configuration with a non-empty job set and a non-empty
ordered-server list, `startOrderServers` never invokes any ordered server's
`Init`; it delegates to `startJobs` and returns `isNeedStop = true`,
abandoning startup for that entry and all later ones (its whole trace is the
first server's `Prepare` followed by the job run). -/
theorem startOrderServers_jobs_short_circuit
    (s : OrderedServer) (rest : List OrderedServer) (j : JobModel) (js : List JobModel)
    (b : Nat) (ord : List Nat) :
    startOrderServers ⟨s :: rest, j :: js, b⟩ ord
      = (startJobs (j :: js) ord, true, [Event.prepare 0 s.name, Event.runJobs])
    ∧ ∀ k nm, Event.initServer k nm ∉ (startOrderServers ⟨s :: rest, j :: js, b⟩ ord).2.2 := by
  constructor
  · simp [startOrderServers, startOrderServersGo]
  · intro k nm
    simp [startOrderServers, startOrderServersGo]

/-- Witness for C1 at a concrete configuration. -/
theorem startOrderServers_jobs_short_circuit_witness :
    startOrderServers ⟨[⟨"srv", fun _ => true⟩], [⟨none⟩], 1⟩ []
      = (startJobs [⟨none⟩] [], true, [Event.prepare 0 "srv", Event.runJobs])
    ∧ ∀ k nm, Event.initServer k nm
        ∉ (startOrderServers ⟨[⟨"srv", fun _ => true⟩], [⟨none⟩], 1⟩ []).2.2 :=
  startOrderServers_jobs_short_circuit ⟨"srv", fun _ => true⟩ [] ⟨none⟩ [] 1 []

/-- C10: with an empty ordered-server list, `startOrderServers` returns
(nil error, `isNeedStop = false`) and never reaches the job check, so
`startJobs` is not invoked even when jobs are configured. -/
theorem startOrderServers_empty_skips_jobs (js : List JobModel) (b : Nat) (ord : List Nat) :
    startOrderServers ⟨[], js, b⟩ ord = (none, false, [])
    ∧ Event.runJobs ∉ (startOrderServers ⟨[], js, b⟩ ord).2.2 := by
  constructor
  · rfl
  · simp [startOrderServers, startOrderServersGo]

/-- Witness for C10 with a non-empty job set. -/
theorem startOrderServers_empty_skips_jobs_witness :
    startOrderServers ⟨[], [⟨some "boom"⟩], 1⟩ [0] = (none, false, [])
    ∧ Event.runJobs ∉ (startOrderServers ⟨[], [⟨some "boom"⟩], 1⟩ [0]).2.2 :=
  startOrderServers_empty_skips_jobs [⟨some "boom"⟩] 1 [0]

/-- C3: when a second signal arrives while the first shutdown is in flight,
the handler's final action is `os.Exit(128 + signal number)` — the signal
number converted is the first received signal `s` — with no action after the
exit (cleanup is bypassed); with only one signal received no exit happens. -/
theorem waitSignals_second_signal_exit (r s1 s2 : Nat) (rest : List Nat) :
    waitSignals r (s1 :: s2 :: rest)
      = [SigAction.spawnStop (s1 != sigquitNum) (s1 == r), SigAction.logQuit,
         SigAction.exitProcess (128 + s1)]
    ∧ (waitSignals r (s1 :: s2 :: rest)).getLast? = some (SigAction.exitProcess (128 + s1))
    ∧ ∀ c, SigAction.exitProcess c ∉ waitSignals r [s1] := by
  refine ⟨rfl, rfl, ?_⟩
  intro c
  simp [waitSignals]

/-- Witness for C3: two SIGTERM (15) deliveries exit with status 143. -/
theorem waitSignals_second_signal_exit_witness :
    waitSignals 10 [15, 15]
      = [SigAction.spawnStop (15 != sigquitNum) (15 == 10), SigAction.logQuit,
         SigAction.exitProcess (128 + 15)]
    ∧ (waitSignals 10 [15, 15]).getLast? = some (SigAction.exitProcess (128 + 15))
    ∧ ∀ c, SigAction.exitProcess c ∉ waitSignals 10 [15] :=
  waitSignals_second_signal_exit 10 15 15 []

/-- C4 (code evaluated at the failing input): because `cancel` is deferred
until after `<-stopCtx.Done()`, the stop goroutine's wait always ends at the
deadline and `stopCtx.Err()` is then always `DeadlineExceeded`, so the
deadline-expiry error is recorded even when `Stop` finished well within the
timeout: with `Stop` returning at time 0 and a timeout of 5 the goroutine
still waits until time 5 and records the error — and the error flag is true
for every duration/timeout pair. -/
theorem waitSignalsStopRoutine_always_records :
    waitSignalsStopRoutine 0 5 = (5, true)
    ∧ ∀ d t, (waitSignalsStopRoutine d t).2 = true := by
  constructor
  · rfl
  · intro d t
    simp [waitSignalsStopRoutine, ctxErrAt, ctxDoneAt, Nat.le_max_right]

/-- C2: the sequencer invokes server n+1's `Init` only if server n's health
probe reported ready within the retry budget; and if a server never becomes
healthy (all earlier ones being healthy, jobs absent), the sequencer returns
an error naming that instance, reports `isNeedStop = true`, and behaves
exactly as if the later entries were absent (no later entry is started). -/
theorem startOrderServers_health_gate
    (b : Nat) (ord : List Nat) (pre post : List OrderedServer) (bad : OrderedServer)
    (hpre : ∀ s ∈ pre, healthLoop s.health b 0 = true)
    (hbad : healthLoop bad.health b 0 = false) :
    (∀ (l : List OrderedServer) (js : List JobModel) (n : Nat) (nm : String),
        Event.initServer (n + 1) nm ∈ (startOrderServers ⟨l, js, b⟩ ord).2.2 →
        ∃ s, l.get? n = some s ∧ healthLoop s.health b 0 = true)
    ∧ (startOrderServers ⟨pre ++ bad :: post, [], b⟩ ord).1
        = some ("start order server fail,err:  " ++ bad.name)
    ∧ (startOrderServers ⟨pre ++ bad :: post, [], b⟩ ord).2.1 = true
    ∧ startOrderServers ⟨pre ++ bad :: post, [], b⟩ ord
        = startOrderServers ⟨pre ++ [bad], [], b⟩ ord := by
  have hstop := go_unhealthy_stops ord b pre bad post 0 hpre hbad
  refine ⟨?_, hstop.2.1, hstop.2.2, hstop.1⟩
  intro l js n nm h
  obtain ⟨hjs, _, ⟨s2, hget2, hnm⟩, hall⟩ := initServer_mem_go js ord b l 0 (n + 1) nm h
  have hget2' : l.get? (n + 1) = some s2 := hget2
  have hlt : n + 1 < l.length := by
    rcases List.get?_eq_some.mp hget2' with ⟨hl, _⟩
    exact hl
  have hn : n < l.length := Nat.lt_of_succ_lt hlt
  refine ⟨l.get ⟨n, hn⟩, List.get?_eq_get hn, ?_⟩
  exact hall n (l.get ⟨n, hn⟩) (by simp) (List.get?_eq_get hn)

/-- Witness for C2: servers "a" (healthy), "b" (never healthy), "c"; the
sequencer fails naming "b" and never reaches "c". -/
theorem startOrderServers_health_gate_witness :
    ((∀ s ∈ [OrderedServer.mk "a" (fun _ => true)], healthLoop s.health 1 0 = true)
      ∧ healthLoop (OrderedServer.mk "b" (fun _ => false)).health 1 0 = false)
    ∧ ((∀ (l : List OrderedServer) (js : List JobModel) (n : Nat) (nm : String),
          Event.initServer (n + 1) nm ∈ (startOrderServers ⟨l, js, 1⟩ []).2.2 →
          ∃ s, l.get? n = some s ∧ healthLoop s.health 1 0 = true)
      ∧ (startOrderServers ⟨[OrderedServer.mk "a" (fun _ => true)]
            ++ OrderedServer.mk "b" (fun _ => false)
              :: [OrderedServer.mk "c" (fun _ => true)], [], 1⟩ []).1
          = some ("start order server fail,err:  "
              ++ (OrderedServer.mk "b" (fun _ => false)).name)
      ∧ (startOrderServers ⟨[OrderedServer.mk "a" (fun _ => true)]
            ++ OrderedServer.mk "b" (fun _ => false)
              :: [OrderedServer.mk "c" (fun _ => true)], [], 1⟩ []).2.1 = true
      ∧ startOrderServers ⟨[OrderedServer.mk "a" (fun _ => true)]
            ++ OrderedServer.mk "b" (fun _ => false)
              :: [OrderedServer.mk "c" (fun _ => true)], [], 1⟩ []
          = startOrderServers ⟨[OrderedServer.mk "a" (fun _ => true)]
              ++ [OrderedServer.mk "b" (fun _ => false)], [], 1⟩ []) :=
  ⟨⟨by intro s hs; simp at hs; subst hs; rfl, rfl⟩,
   startOrderServers_health_gate 1 [] [OrderedServer.mk "a" (fun _ => true)]
     [OrderedServer.mk "c" (fun _ => true)] (OrderedServer.mk "b" (fun _ => false))
     (by intro s hs; simp at hs; subst hs; rfl) rfl⟩

/-- C5: the descriptor count published as `LISTEN_FDS` equals the number of
descriptor names collected for `LISTEN_FDNAMES` and equals the number of
reload-capable listeners, and `LISTEN_FDNAMES` is exactly the colon-join of
those listeners' descriptor names. -/
theorem forkChild_fd_invariant (ls : List ReloadListener) (args : List String) :
    (forkChild ls args).1 = (extractLoop ls).2.length
    ∧ (forkChild ls args).1 = ls.length
    ∧ (forkChild ls args).2.1 = String.intercalate ":" (ls.map ReloadListener.fdName) := by
  refine ⟨?_, ?_, ?_⟩ <;> simp [forkChild, extractLoop_spec]

/-- C6 counterexample: a parent argument list that already contains "-r"
twice is passed through unchanged, so the child's argument list does not
contain "-r" exactly once. -/
theorem forkChild_dash_r_not_exactly_once :
    (forkChild [] ["-r", "-r"]).2.2 = ["-r", "-r"]
    ∧ ((forkChild [] ["-r", "-r"]).2.2).count "-r" ≠ 1 := by
  refine ⟨rfl, by decide⟩

/-- C6 (amended): the child's argument list always contains "-r" at least
once; "-r" is appended exactly when absent (and then occurs exactly once);
when already present the list is passed through unchanged (so a parent list
carrying "-r" more than once keeps all copies); the transformation is
idempotent. -/
theorem forkChild_dash_r_amended (ls : List ReloadListener) (args : List String) :
    "-r" ∈ (forkChild ls args).2.2
    ∧ ("-r" ∉ args → (forkChild ls args).2.2 = args ++ ["-r"]
        ∧ ((forkChild ls args).2.2).count "-r" = 1)
    ∧ ("-r" ∈ args → (forkChild ls args).2.2 = args)
    ∧ childArgs (childArgs args) = childArgs args := by
  refine ⟨?_, ?_, ?_, ?_⟩
  · by_cases h : "-r" ∈ args <;> simp [forkChild, childArgs, h]
  · intro h
    constructor
    · simp [forkChild, childArgs, h]
    · simp [forkChild, childArgs, h, List.count_append, List.count_eq_zero.mpr h]
  · intro h
    simp [forkChild, childArgs, h]
  · by_cases h : "-r" ∈ args
    · simp [childArgs, h]
    · simp [childArgs, h]

/-- Witness for C6 (amended) at a parent list without the flag. -/
theorem forkChild_dash_r_amended_witness :
    "-r" ∈ (forkChild [] ["--config", "a.toml"]).2.2
    ∧ ("-r" ∉ ["--config", "a.toml"] →
        (forkChild [] ["--config", "a.toml"]).2.2 = ["--config", "a.toml"] ++ ["-r"]
        ∧ ((forkChild [] ["--config", "a.toml"]).2.2).count "-r" = 1)
    ∧ ("-r" ∈ ["--config", "a.toml"] →
        (forkChild [] ["--config", "a.toml"]).2.2 = ["--config", "a.toml"])
    ∧ childArgs (childArgs ["--config", "a.toml"]) = childArgs ["--config", "a.toml"] :=
  forkChild_dash_r_amended [] ["--config", "a.toml"]

/-- C7: `runSerialFuncReturnError` invokes hooks in order, stops at the first
hook returning a non-nil error (invoking `pre.length + 1` hooks when the
hooks before the failing one all succeed) and returns that error, and returns
nil after invoking all hooks when every hook succeeds; `runSerialFuncLogError`
always invokes every hook, collecting (logging) the failures in order, and
returns no error at all. -/
theorem stopHook_error_policy (pre post : List Err) (e : String)
    (hpre : ∀ r ∈ pre, r = none) :
    runSerialFuncReturnError (pre ++ some e :: post) = (some e, pre.length + 1)
    ∧ (∀ l : List Err, (∀ r ∈ l, r = none) → runSerialFuncReturnError l = (none, l.length))
    ∧ ∀ l : List Err,
        (runSerialFuncLogError l).1 = l.length
          ∧ (runSerialFuncLogError l).2 = l.filterMap id := by
  refine ⟨runSerialReturn_first_err pre e post hpre, ?_, ?_⟩
  · intro l hl
    exact runSerialReturn_all_none l hl
  · intro l
    exact runSerialLog_spec l

/-- Witness for C7: one succeeding hook, then a failing one, then one more
that the fail-fast runner never reaches. -/
theorem stopHook_error_policy_witness :
    (∀ r ∈ [(none : Err)], r = none)
    ∧ (runSerialFuncReturnError ([none] ++ some "boom" :: [some "later"])
        = (some "boom", [(none : Err)].length + 1)
      ∧ (∀ l : List Err, (∀ r ∈ l, r = none) → runSerialFuncReturnError l = (none, l.length))
      ∧ ∀ l : List Err,
          (runSerialFuncLogError l).1 = l.length
            ∧ (runSerialFuncLogError l).2 = l.filterMap id) :=
  ⟨by simp, stopHook_error_policy [none] [some "later"] "boom" (by simp)⟩

/-- C8: in both run closures (plain servers and ordered servers) the
unregister call is the last action when the run unit exits, whatever the
`Start` result and whatever the register result; a register failure is logged
and `Start` is still invoked; the closure's own result is the `Start` error. -/
theorem runUnit_unregister_policy (regErr startRes : Err) :
    ((serverRunUnit regErr startRes).2).getLast? = some SrvEvent.unregisterCall
    ∧ ((orderRunUnit regErr startRes).2).getLast? = some SrvEvent.unregisterCall
    ∧ SrvEvent.startCall ∈ (serverRunUnit regErr startRes).2
    ∧ SrvEvent.startCall ∈ (orderRunUnit regErr startRes).2
    ∧ (∀ e, regErr = some e →
        SrvEvent.logRegErr e ∈ (serverRunUnit regErr startRes).2
          ∧ SrvEvent.logRegErr e ∈ (orderRunUnit regErr startRes).2)
    ∧ (serverRunUnit regErr startRes).1 = startRes
    ∧ (orderRunUnit regErr startRes).1 = startRes := by
  cases regErr with
  | none =>
    refine ⟨rfl, rfl, by simp [serverRunUnit], by simp [orderRunUnit], ?_, rfl, rfl⟩
    intro e he
    exact absurd he (by simp)
  | some a =>
    refine ⟨rfl, rfl, by simp [serverRunUnit], by simp [orderRunUnit], ?_, rfl, rfl⟩
    intro e he
    have ha : a = e := by injection he
    subst ha
    exact ⟨by simp [serverRunUnit], by simp [orderRunUnit]⟩

/-- Witness for C8: register fails with "reg down", `Start` fails with
"crash"; unregister still runs last and the register error is logged. -/
theorem runUnit_unregister_policy_witness :
    ((serverRunUnit (some "reg down") (some "crash")).2).getLast?
        = some SrvEvent.unregisterCall
    ∧ ((orderRunUnit (some "reg down") (some "crash")).2).getLast?
        = some SrvEvent.unregisterCall
    ∧ SrvEvent.startCall ∈ (serverRunUnit (some "reg down") (some "crash")).2
    ∧ SrvEvent.startCall ∈ (orderRunUnit (some "reg down") (some "crash")).2
    ∧ (∀ e, (some "reg down" : Err) = some e →
        SrvEvent.logRegErr e ∈ (serverRunUnit (some "reg down") (some "crash")).2
          ∧ SrvEvent.logRegErr e ∈ (orderRunUnit (some "reg down") (some "crash")).2)
    ∧ (serverRunUnit (some "reg down") (some "crash")).1 = some "crash"
    ∧ (orderRunUnit (some "reg down") (some "crash")).1 = some "crash" :=
  runUnit_unregister_policy (some "reg down") (some "crash")

/-- C9: `startJobs` returns nil immediately for an empty job set; when the
completion order covers every job (`errgroup` waits for all goroutines), its
result is nil iff every job succeeded, and a non-nil result is the error of
one of the configured jobs (the first one observed in completion order). -/
theorem startJobs_aggregate (jobs : List JobModel) (order : List Nat)
    (hperm : order.Perm (List.range jobs.length)) :
    startJobs [] order = none
    ∧ (startJobs jobs order = none ↔ ∀ j ∈ jobs, j.result = none)
    ∧ (∀ e, startJobs jobs order = some e → some e ∈ jobs.map JobModel.result) := by
  by_cases hlen : jobs.length = 0
  · have hj : jobs = [] := List.length_eq_zero.mp hlen
    subst hj
    refine ⟨rfl, by simp [startJobs], ?_⟩
    intro e he
    simp [startJobs] at he
  · refine ⟨rfl, ?_, ?_⟩
    · rw [startJobs, if_neg hlen, firstErr_eq_none_iff]
      constructor
      · intro h j hj
        obtain ⟨n, hget⟩ := List.mem_iff_get?.mp hj
        have hn : n < jobs.length := by
          rcases List.get?_eq_some.mp hget with ⟨hl, _⟩
          exact hl
        have hmemord : n ∈ order := hperm.mem_iff.mpr (List.mem_range.mpr hn)
        exact h j.result (List.mem_filterMap.mpr ⟨n, hmemord, by rw [hget]; rfl⟩)
      · intro h x hx
        obtain ⟨i, hi, hfi⟩ := List.mem_filterMap.mp hx
        obtain ⟨j, hget, hres⟩ := Option.map_eq_some'.mp hfi
        subst hres
        exact h j (List.get?_mem hget)
    · intro e he
      rw [startJobs, if_neg hlen] at he
      obtain ⟨i, hi, hfi⟩ := List.mem_filterMap.mp (firstErr_mem _ e he)
      obtain ⟨j, hget, hres⟩ := Option.map_eq_some'.mp hfi
      exact List.mem_map.mpr ⟨j, List.get?_mem hget, hres⟩

/-- Witness for C9: two jobs, the second (in index order) failing; completion
order [1, 0] observes the failure first. -/
theorem startJobs_aggregate_witness :
    List.Perm [1, 0] (List.range [JobModel.mk (some "job failed"), JobModel.mk none].length)
    ∧ (startJobs [] [1, 0] = none
      ∧ (startJobs [JobModel.mk (some "job failed"), JobModel.mk none] [1, 0] = none ↔
          ∀ j ∈ [JobModel.mk (some "job failed"), JobModel.mk none], j.result = none)
      ∧ ∀ e, startJobs [JobModel.mk (some "job failed"), JobModel.mk none] [1, 0] = some e →
          some e ∈ [JobModel.mk (some "job failed"), JobModel.mk none].map JobModel.result) :=
  ⟨by decide, startJobs_aggregate [JobModel.mk (some "job failed"), JobModel.mk none] [1, 0]
    (by decide)⟩

end Ego
